import Mathlib

/-!
Verification development for the `mrta` multi-robot task-allocation system.

The development shallowly embeds the auction round (`mrs/allocation/round.py`),
the bidder (`mrs/allocation/bidder.py`), the per-robot timetable
(`mrs/timetable/timetable.py`) and the fleet timetable manager
(`mrs/timetable/manager.py`).  Python objects become Lean structures, mutation
becomes explicit state passing, `raise` becomes `Except` / an explicit error
component, and the external STN engine (the `stn` package) is treated as a
black box: its operations enter as function parameters, or as minimal concrete
models when a claim needs their data (serialization, node/task lookup).
Python floats are modelled by rationals.
-/

/-! ## Bids and their ordering

The `Bid` message class (`mrs/messages/bid.py` and `mrs/bidding/bid.py`) is not
part of the sources in scope; it is modelled from the spec.
-/

/-- Modelled from the spec: the `Bid` class is missing from the sources.
A bid carries `robot_id`, `task_id`, an `insertion_point`, a cost
`(risk_metric, temporal_metric)` and an optional `alternative_start_time`
(spec section 3).  A no-bid is a bid whose cost is `(None, None)`; it is
modelled by `cost = none`.  The STN snapshots carried by a bid play no role in
the ordering claims and are omitted. -/
structure Bid where
  robot_id : String
  task_id : String
  insertion_point : Nat
  cost : Option (ℚ × ℚ)
  alternative_start_time : Option ℚ
deriving DecidableEq

/-- Lexicographic strict comparison of costs `(risk_metric, temporal_metric)`,
lower is better (spec section 4.5). -/
def costLt (a b : ℚ × ℚ) : Bool :=
  decide (a.1 < b.1) || (decide (a.1 = b.1) && decide (a.2 < b.2))

/-- Modelled from the spec: `Bid.__lt__` is missing from the sources.  Bid A
is less than bid B iff `A.cost < B.cost` lexicographically (spec section 4.5).
The comparison is only ever applied to bids whose costs are present: in
Python, comparing against a `(None, None)` cost raises, and the code paths
embedded here never do so. -/
def Bid.lt (a b : Bid) : Bool :=
  match a.cost, b.cost with
  | some ca, some cb => costLt ca cb
  | _, _ => false

/-- Modelled from the spec: `Bid.__eq__` is missing from the sources.
Equality is exact-value equality on both cost components (spec section 4.5). -/
def Bid.eqCost (a b : Bid) : Bool :=
  decide (a.cost = b.cost)

/-- Splits a character list on underscores, mirroring Python
`str.split("_")`. -/
def splitUnderscoreAux : List Char → List Char → List (List Char)
  | [], acc => [acc.reverse]
  | c :: rest, acc =>
    if c = '_' then acc.reverse :: splitUnderscoreAux rest []
    else splitUnderscoreAux rest (c :: acc)

/-- Last underscore-separated field of a string: `robot_001` gives `001`. -/
def lastUnderscoreField (s : String) : List Char :=
  (splitUnderscoreAux s.data []).getLastD []

/-- Numeric value of a decimal digit character, if it is one. -/
def digitVal (c : Char) : Option Nat :=
  if 48 ≤ c.toNat ∧ c.toNat ≤ 57 then some (c.toNat - 48) else none

/-- Accumulating decimal parser over a character list. -/
def digitsToNatAux : List Char → Nat → Option Nat
  | [], acc => some acc
  | c :: rest, acc =>
    match digitVal c with
    | some d => digitsToNatAux rest (acc * 10 + d)
    | none => none

/-- Decimal parse of a character list, mirroring Python `int(...)` on the
strings that occur here (digit-only, leading zeros allowed; `int` raises on
anything else, which is modelled by `none`). -/
def digitsToNat (cs : List Char) : Option Nat :=
  if cs = [] then none else digitsToNatAux cs 0

/-- Numeric suffix of a robot id, mirroring
`int(robot_id.split('_')[-1])` in `Round.update_task_bid`
(`mrs/allocation/round.py`). -/
def robot_id_suffix (s : String) : Option Nat :=
  digitsToNat (lastUnderscoreField s)

/-- Embeds `Round.update_task_bid` (`mrs/allocation/round.py`, lines 73-85):
the new bid replaces the old one iff `new_bid < old_bid` or the costs are
equal and the new robot id's numeric suffix is strictly smaller.  In Python,
`int(...)` raises on a non-numeric suffix; every robot id in the system is of
the form `robot_NNN`, and the claims about this function assume suffixes that
parse, so the `getD 0` default is never exercised there. -/
def update_task_bid (new_bid old_bid : Bid) : Bool :=
  let old_robot_id := (robot_id_suffix old_bid.robot_id).getD 0
  let new_robot_id := (robot_id_suffix new_bid.robot_id).getD 0
  Bid.lt new_bid old_bid || (Bid.eqCost new_bid old_bid && decide (new_robot_id < old_robot_id))

/-- Association-list lookup modelling Python `dict` access by key. -/
def lookupKey {α : Type} : List (String × α) → String → Option α
  | [], _ => none
  | p :: rest, k => if p.1 == k then some p.2 else lookupKey rest k

/-- Association-list update modelling Python `d[k] = v`: an existing key keeps
its position, a new key is appended (insertion order). -/
def setKey {α : Type} : List (String × α) → String → α → List (String × α)
  | [], k, v => [(k, v)]
  | p :: rest, k, v => if p.1 == k then (k, v) :: rest else p :: setKey rest k v

/-- Python `d.get(k, 0)` over the no-bid counter map. -/
def lookupCount (m : List (String × Nat)) (k : String) : Nat :=
  (lookupKey m k).getD 0

/-- State of an auction round (`Round.__init__`, `mrs/allocation/round.py`):
the round id, the best-so-far bid per task, the no-bid counter per task and
the `alternative_timeslots` flag.  Timing fields (`closure_time`,
`start_time`, `time_to_allocate`) and the `opened` / `finished` flags do not
enter the embedded operations and are omitted. -/
structure Round where
  id : String
  received_bids : List (String × Bid)
  received_no_bids : List (String × Nat)
  alternative_timeslots : Bool
deriving DecidableEq

/-- Embeds `Round.process_bid` (`mrs/allocation/round.py`, lines 56-71): a bid
whose cost is not `(None, None)` is stored for its task if the task has no
stored bid yet or `update_task_bid` accepts it; a no-bid increments the task's
no-bid counter. -/
def process_bid (r : Round) (bid : Bid) : Round :=
  match bid.cost with
  | some _ =>
    match lookupKey r.received_bids bid.task_id with
    | none => { r with received_bids := setKey r.received_bids bid.task_id bid }
    | some old_bid =>
      if update_task_bid bid old_bid then
        { r with received_bids := setKey r.received_bids bid.task_id bid }
      else r
  | none =>
    { r with received_no_bids :=
        setKey r.received_no_bids bid.task_id (lookupCount r.received_no_bids bid.task_id + 1) }

/-- Election comparison used by `Round.elect_winner` and by the bidder's
best-bid selection: strictly smaller bid, or equal cost and strictly smaller
`task_id` (UUIDs compare like their fixed-width textual form, modelled by
`String` order). -/
def bid_better (bid lowest : Bid) : Bool :=
  Bid.lt bid lowest || (Bid.eqCost bid lowest && decide (bid.task_id < lowest.task_id))

/-- Loop of `Round.elect_winner` (`mrs/allocation/round.py`, lines 141-160)
over the entries of `received_bids`, carrying the lowest bid seen so far
(`copy.deepcopy` is the identity under value semantics). -/
def elect_winner_loop : List (String × Bid) → Option Bid → Option Bid
  | [], lowest => lowest
  | (_, bid) :: rest, lowest =>
    elect_winner_loop rest
      (match lowest with
       | none => some bid
       | some lb => if bid_better bid lb then some bid else some lb)

/-- Error raised when a round elects no winner, carrying the round id. -/
structure NoAllocation where
  round_id : String
deriving DecidableEq

/-- Embeds `Round.elect_winner` (`mrs/allocation/round.py`, lines 141-160):
the lowest bid across all task entries of `received_bids`, or
`NoAllocation(round id)` when there is none. -/
def elect_winner (r : Round) : Except NoAllocation Bid :=
  match elect_winner_loop r.received_bids none with
  | some lowest_bid => Except.ok lowest_bid
  | none => Except.error ⟨r.id⟩

/-- Outcome of `Round.get_result`: a normal allocation result, the
`AlternativeTimeSlot` signal carrying the winning bid, or `NoAllocation`
carrying the round id. -/
inductive RoundResult where
  | allocation (winning_bid : Bid)
  | alternative_time_slot (winning_bid : Bid)
  | no_allocation (round_id : String)
deriving DecidableEq

/-- Embeds `Round.get_result` (`mrs/allocation/round.py`, lines 98-126).  The
`set_soft_constraints` call only mutates task records in the store and leaves
the round state untouched, so it does not appear on the round state; the
`alternative_start_time` truthiness test is modelled by `Option.isSome` (the
field holds a timestamp object when set). -/
def get_result (r : Round) : RoundResult :=
  match elect_winner r with
  | Except.error e => RoundResult.no_allocation e.round_id
  | Except.ok winning_bid =>
    if winning_bid.alternative_start_time.isSome then
      RoundResult.alternative_time_slot winning_bid
    else
      RoundResult.allocation winning_bid

/-- Strict ordering of spec section 4.5 on costs with the `task_id`
tie-break, written out on the components. -/
def cost_task_lt (ca cb : ℚ × ℚ) (ta tb : String) : Prop :=
  ca.1 < cb.1 ∨ (ca.1 = cb.1 ∧ (ca.2 < cb.2 ∨ (ca.2 = cb.2 ∧ ta < tb)))

/-- Non-strict companion of `cost_task_lt`. -/
def cost_task_le (ca cb : ℚ × ℚ) (ta tb : String) : Prop :=
  ca.1 < cb.1 ∨ (ca.1 = cb.1 ∧ (ca.2 < cb.2 ∨ (ca.2 = cb.2 ∧ ta ≤ tb)))

/-- Ordering of spec section 4.5 in its non-strict form, used to state the
election claims: lexicographically smaller-or-equal cost
`(risk_metric, temporal_metric)` with ties broken by smaller `task_id`.
Only non-no-bids are related. -/
def bid_le_spec (a b : Bid) : Prop :=
  ∃ ca cb, a.cost = some ca ∧ b.cost = some cb ∧ cost_task_le ca cb a.task_id b.task_id

/-! ## Bidder (`mrs/allocation/bidder.py`) -/

/-- Task lifecycle statuses from `ropod.structs.task.TaskStatus` that matter
to the embedded operations. -/
inductive TaskStatusConst where
  | unallocated
  | allocated
  | planned
  | dispatched
  | scheduled
  | ongoing
  | completed
  | aborted
deriving DecidableEq

/-- Task record as seen by the bidder: identity, lifecycle status and the
delivery location of its request. -/
structure TaskInfo where
  task_id : String
  status : TaskStatusConst
  delivery_location : String
deriving DecidableEq

/-- Error raised by `Timetable.get_task` when the position holds no task. -/
structure TaskNotFound where
  position : Nat
deriving DecidableEq

/-- Embeds `Timetable.get_task` (`mrs/timetable/timetable.py`, lines 142-152).
The robot's timetable is abstracted to its task sequence: position `i` (1
based) holds the `i`-th task.  `stn.get_task_id` returns the task id at the
position or `None`; on `None` the method raises `TaskNotFound(position)`.
The store fetch `Task.get_task(task_id)` is assumed to succeed for tasks that
are in the timetable. -/
def timetable_get_task (tasks : List TaskInfo) (position : Nat) : Except TaskNotFound TaskInfo :=
  match tasks.get? (position - 1) with
  | some task => Except.ok task
  | none => Except.error ⟨position⟩

/-- Embeds `Bidder.insert_in` (`mrs/allocation/bidder.py`, lines 157-162): a
position is usable only if the task currently there has status `ALLOCATED`.
The `if task` guard in the source expects a falsy task for an empty position,
but `Timetable.get_task` raises `TaskNotFound` instead, and nothing in
`insert_in` or its callers catches it, so the error propagates. -/
def insert_in (tasks : List TaskInfo) (insertion_point : Nat) : Except TaskNotFound Bool :=
  match timetable_get_task tasks insertion_point with
  | Except.ok task =>
    if task.status ≠ TaskStatusConst.allocated then Except.ok false else Except.ok true
  | Except.error e => Except.error e

/-- Loop of `Bidder.insert_task` (`mrs/allocation/bidder.py`, lines 127-155)
over the insertion points, carrying the best bid so far.  `compute_bid`
abstracts the whole body of one iteration after the `insert_in` check:
previous-position lookup, travel-time estimation and
`bidding_rule.compute_bid`; it returns `none` when the bidding rule raises
`NoSTPSolution` (the point is skipped). -/
def insert_task_loop (compute_bid : Nat → Option Bid) (tasks : List TaskInfo) :
    List Nat → Option Bid → Except TaskNotFound (Option Bid)
  | [], best_bid => Except.ok best_bid
  | insertion_point :: rest, best_bid =>
    match insert_in tasks insertion_point with
    | Except.error e => Except.error e
    | Except.ok false => insert_task_loop compute_bid tasks rest best_bid
    | Except.ok true =>
      match compute_bid insertion_point with
      | none => insert_task_loop compute_bid tasks rest best_bid
      | some bid =>
        insert_task_loop compute_bid tasks rest
          (match best_bid with
           | none => some bid
           | some bb => if bid_better bid bb then some bid else some bb)

/-- Embeds `Bidder.insert_task` (`mrs/allocation/bidder.py`, lines 127-155):
insertion points `1 .. k+1` where `k` is the number of tasks currently in the
timetable. -/
def insert_task (compute_bid : Nat → Option Bid) (tasks : List TaskInfo) :
    Except TaskNotFound (Option Bid) :=
  insert_task_loop compute_bid tasks (List.range' 1 (tasks.length + 1)) none

/-- Embeds `Bidder.get_previous_position` (`mrs/allocation/bidder.py`, lines
164-177).  For insertion point 1 the robot's stored position is looked up
(`robot_position = none` models the store raising `DoesNotExist`, which the
source catches, falling back to the hardcoded location); otherwise the
delivery location of the task at the previous position is used, and a missing
task there propagates `TaskNotFound` as in the source. -/
def get_previous_position (robot_position : Option (ℚ × ℚ × ℚ))
    (planner_get_node : ℚ × ℚ × ℚ → String) (tasks : List TaskInfo)
    (insertion_point : Nat) : Except TaskNotFound String :=
  if insertion_point = 1 then
    match robot_position with
    | some p => Except.ok (planner_get_node p)
    | none => Except.ok "AMK_D_L-1_C39"
  else
    match timetable_get_task tasks (insertion_point - 1) with
    | Except.ok previous_task => Except.ok previous_task.delivery_location
    | Except.error e => Except.error e

/-! ## Timetable data and serialization (`mrs/timetable/timetable.py`) -/

/-- Modelled from the spec: the node form of the external `stn` package's
graphs (spec section 6: nodes are `id` plus `data`).  The node data is
abstracted to the id of the owning task, which is what the embedded
operations read from it. -/
structure StnNode where
  id : Nat
  data : String
deriving DecidableEq

/-- Modelled from the spec: the edge form of the external `stn` package's
graphs (spec section 6: `from`, `to`, `lb`, `ub`, `executed`). -/
structure StnEdge where
  source : Nat
  target : Nat
  lb : ℚ
  ub : ℚ
  executed : Bool
deriving DecidableEq

/-- Modelled from the spec: an STN value of the external `stn` package, in
the graph form of spec section 6. -/
structure Stn where
  nodes : List StnNode
  edges : List StnEdge
deriving DecidableEq

/-- Serialized form of an STN (spec section 6): a mapping with a list of
node entries and a list of edge entries. -/
structure StnDoc where
  nodes : List (Nat × String)
  edges : List (Nat × Nat × ℚ × ℚ × Bool)
deriving DecidableEq

/-- Modelled from the spec: `stn.to_dict()` of the external `stn` package
serializes the graph to the node/edge mapping of spec section 6. -/
def stn_to_dict (s : Stn) : StnDoc :=
  ⟨s.nodes.map (fun n => (n.id, n.data)),
   s.edges.map (fun e => (e.source, e.target, e.lb, e.ub, e.executed))⟩

/-- Modelled from the spec: `stn_cls.from_dict()` of the external `stn`
package rebuilds the graph from the node/edge mapping of spec section 6. -/
def stn_from_dict (d : StnDoc) : Stn :=
  ⟨d.nodes.map (fun p => ⟨p.1, p.2⟩),
   d.edges.map (fun p => ⟨p.1, p.2.1, p.2.2.1, p.2.2.2.1, p.2.2.2.2⟩)⟩

/-- Modelled from the spec: `ropod.utils.timestamp.TimeStamp` is external; a
timestamp is represented by its canonical serialized text, which makes
`to_str` and `from_str` the evident pair. -/
structure TimeStamp where
  iso : String
deriving DecidableEq

/-- Serialization of a timestamp (`TimeStamp.to_str`). -/
def TimeStamp.to_str (t : TimeStamp) : String := t.iso

/-- Deserialization of a timestamp (`TimeStamp.from_str`). -/
def TimeStamp.from_str (s : String) : TimeStamp := ⟨s⟩

/-- Data content of a `Timetable` (`mrs/timetable/timetable.py`): robot id,
zero timepoint, STN and dispatchable graph.  The `stp_solver` and logger
fields are behaviour, not data, and do not enter `to_dict`. -/
structure Timetable where
  robot_id : String
  ztp : TimeStamp
  stn : Stn
  dispatchable_graph : Stn
deriving DecidableEq

/-- Serialized form of a timetable, the dict built by `Timetable.to_dict`. -/
structure TimetableDoc where
  robot_id : String
  ztp : String
  stn : StnDoc
  dispatchable_graph : StnDoc
deriving DecidableEq

/-- Embeds `Timetable.to_dict` (`mrs/timetable/timetable.py`, lines 248-255). -/
def timetable_to_dict (t : Timetable) : TimetableDoc :=
  ⟨t.robot_id, t.ztp.to_str, stn_to_dict t.stn, stn_to_dict t.dispatchable_graph⟩

/-- Embeds `Timetable.from_dict` (`mrs/timetable/timetable.py`, lines
257-268): a fresh timetable for the recorded robot id whose ztp, STN and
dispatchable graph are rebuilt from the dict.  The `stp_solver` argument only
provides the empty graphs that are immediately overwritten, so it has no data
content here. -/
def timetable_from_dict (d : TimetableDoc) : Timetable :=
  ⟨d.robot_id, TimeStamp.from_str d.ztp, stn_from_dict d.stn, stn_from_dict d.dispatchable_graph⟩

/-! ## Timepoint assignment (`Timetable.assign_timepoint`) -/

/-- Error raised when a timepoint cannot be forced consistently. -/
structure InconsistentAssignment where
  assigned_time : ℚ
  task_id : String
  node_type : String
deriving DecidableEq

/-- Embeds `Timetable.assign_timepoint` (`mrs/timetable/timetable.py`, lines
59-67) over an abstract STN type.  `get_minimal_network` returns `some`
exactly when the Python guard `if minimal_network:` is truthy; `stn_assign`
is the engine's `assign_timepoint` with its `force` flag.  The deep copy of
the source is the identity under value semantics.  The first component is the
raised error, if any; the second is the timetable's STN after the call. -/
def assign_timepoint {STN : Type} (get_minimal_network : STN → Option STN)
    (is_consistent : STN → Bool) (stn_assign : STN → ℚ → String → String → Bool → STN)
    (stn : STN) (assigned_time : ℚ) (task_id node_type : String) :
    Option InconsistentAssignment × STN :=
  match get_minimal_network stn with
  | some minimal_network =>
    let forced := stn_assign minimal_network assigned_time task_id node_type true
    if is_consistent forced then
      (none, stn_assign stn assigned_time task_id node_type true)
    else
      (some ⟨assigned_time, task_id, node_type⟩, stn)
  | none => (some ⟨assigned_time, task_id, node_type⟩, stn)

/-! ## Fleet timetable manager (`mrs/timetable/manager.py`) -/

/-- STN and dispatchable graph of one robot's timetable, the two fields
written by the manager's commit. -/
structure TimetableVal (STN : Type) where
  stn : STN
  dispatchable_graph : STN
deriving DecidableEq

/-- Error raised when a winning allocation cannot be committed. -/
structure InvalidAllocation where
  task_id : String
  robot_id : String
  insertion_point : Nat
deriving DecidableEq

/-- Manager-side state for one robot: the in-memory timetable, the persisted
timetable (the store document read by `fetch` and written by `store`) and the
`send_update_to` marker. -/
structure ManagerState (STN : Type) where
  mem : TimetableVal STN
  stored : TimetableVal STN
  send_update_to : Option String
deriving DecidableEq

/-- Embeds `TimetableManager.update_timetable` (`mrs/timetable/manager.py`,
lines 56-77) for the robot being committed.  `timetable.fetch()` reloads the
in-memory timetable from the store; `solve_stp` is modelled from the spec (the
method is not in the sources in scope): per spec section 4.3 it clones the
STN, inserts the task and solves, returning the candidate pair without
mutating the timetable, or `none` for `NoSTPSolution`.  On success the solved
pair (with `temporal_metric` attached to the dispatchable graph) is installed
and stored, and `send_update_to` is set when the insertion point is within the
dispatch window; on `NoSTPSolution` the commit raises `InvalidAllocation` and
`timetable.store()` is never reached. -/
def manager_update_timetable {STN : Type}
    (solve_stp : TimetableVal STN → Option (STN × STN))
    (set_temporal_metric : STN → ℚ → STN) (n_tasks_queue : Nat)
    (st : ManagerState STN) (robot_id : String) (insertion_point : Nat)
    (temporal_metric : ℚ) (task_id : String) :
    Option InvalidAllocation × ManagerState STN :=
  let fetched := st.stored
  match solve_stp fetched with
  | some (stn, dispatchable_graph) =>
    let committed : TimetableVal STN := ⟨stn, set_temporal_metric dispatchable_graph temporal_metric⟩
    let marker := if insertion_point ≤ n_tasks_queue then some robot_id else st.send_update_to
    (none, ⟨committed, committed, marker⟩)
  | none => (some ⟨task_id, robot_id, insertion_point⟩, ⟨fetched, st.stored, st.send_update_to⟩)

/-! ## Delay detection (`Timetable.is_next_task_late`) -/

/-- Action statuses from `ropod.structs.status.ActionStatus` that the delay
check distinguishes. -/
inductive ActionStatus where
  | planned
  | ongoing
  | completed
  | failed
deriving DecidableEq

/-- Duration estimate of an action: mean and variance. -/
structure EstimatedDuration where
  mean : ℚ
  variance : ℚ
deriving DecidableEq

/-- Action of a task: its duration estimate and the STN node names returned
by `get_node_names()`. -/
structure ActionInfo where
  estimated_duration : EstimatedDuration
  start_node : String
  finish_node : String
deriving DecidableEq

/-- Progress record of one action: its status and the action itself. -/
structure ActionProgress where
  status : ActionStatus
  action : ActionInfo
deriving DecidableEq

/-- One iteration of the loop in `Timetable.is_next_task_late`
(`mrs/timetable/timetable.py`, lines 74-80): a completed action becomes the
last completed one; an ongoing or planned action adds its mean and variance
to the running sums. -/
def scan_step (acc : Option ActionInfo × ℚ × ℚ) (a : ActionProgress) :
    Option ActionInfo × ℚ × ℚ :=
  match a.status with
  | ActionStatus.completed => (some a.action, acc.2.1, acc.2.2)
  | ActionStatus.ongoing =>
    (acc.1, acc.2.1 + a.action.estimated_duration.mean, acc.2.2 + a.action.estimated_duration.variance)
  | ActionStatus.planned =>
    (acc.1, acc.2.1 + a.action.estimated_duration.mean, acc.2.2 + a.action.estimated_duration.variance)
  | _ => acc

/-- Loop of `Timetable.is_next_task_late` over the task's action progress
records: last completed action, sum of means and sum of variances of the
ongoing or planned actions. -/
def scan_actions (actions : List ActionProgress) : Option ActionInfo × ℚ × ℚ :=
  actions.foldl scan_step (none, 0, 0)

/-- Fuel-driven integer square-root search on `0 ≤ lo < hi` (binary search;
the fuel makes the recursion structural and kernel-reducible). -/
def isqrtGo (n : Nat) : Nat → Nat → Nat → Nat
  | 0, lo, _ => lo
  | fuel + 1, lo, hi =>
    let mid := (lo + hi) / 2
    if mid = lo then lo
    else if mid * mid ≤ n then isqrtGo n fuel mid hi else isqrtGo n fuel lo mid

/-- Integer square root (floor), kernel-reducible. -/
def isqrt (n : Nat) : Nat :=
  isqrtGo n (n + 2) 0 (n + 1)

/-- Models Python `round(v ** 0.5, 3)` over the rationals: the square root of
`v` rounded to three decimal places, i.e. the nearest integer to
`1000 * sqrt v`, divided by `1000`.  Exact halves (which are not meaningfully
representable in the source's floating point anyway) round up here, where
Python rounds half to even; the claims and inputs considered never sit on a
half.  Negative inputs do not occur: a variance is nonnegative. -/
def sqrtRound3 (v : ℚ) : ℚ :=
  let scaled : ℚ := 1000000 * v
  let k : Nat := isqrt (Int.floor scaled).toNat
  let n : Nat := if 4 * scaled < ((2 * k + 1 : Nat) : ℚ) ^ 2 then k else k + 1
  (n : ℚ) / 1000

/-- Embeds `Timetable.is_next_task_late` (`mrs/timetable/timetable.py`, lines
69-102).  `stn_get_time` abstracts `self.stn.get_time(task_id, node_name)`;
`dg_get_time` abstracts `self.dispatchable_graph.get_time(task_id, node_name,
lower_bound)`.  The remaining duration estimate is the summed means plus two
times the summed variances' square root rounded to three decimals
(`round(variance ** 0.5, 3)` in the source). -/
def is_next_task_late (stn_get_time : String → String → ℚ)
    (dg_get_time : String → String → Bool → ℚ) (task_id next_task_id : String)
    (actions : List ActionProgress) : Bool :=
  let scanned := scan_actions actions
  let estimated_duration := scanned.2.1 + 2 * sqrtRound3 scanned.2.2
  let last_time :=
    match scanned.1 with
    | some last_completed_action => stn_get_time task_id last_completed_action.finish_node
    | none => stn_get_time task_id "start"
  let estimated_start_time := last_time + estimated_duration
  let latest_start_time := dg_get_time next_task_id "start" false
  decide (latest_start_time < estimated_start_time)

/-- Follows the words of claim C7 (and spec section 4.1), not the source: the
remaining duration estimate uses the exact square root of the summed
variances, with no rounding.  Stated over the reals so that the square root
is exact. -/
def spec_is_next_task_late (stn_get_time : String → String → ℚ)
    (dg_get_time : String → String → Bool → ℚ) (task_id next_task_id : String)
    (actions : List ActionProgress) : Prop :=
  let non_completed := actions.filter
    (fun a => a.status == ActionStatus.ongoing || a.status == ActionStatus.planned)
  let mean_sum : ℚ := (non_completed.map (fun a => a.action.estimated_duration.mean)).sum
  let variance_sum : ℚ := (non_completed.map (fun a => a.action.estimated_duration.variance)).sum
  let last_time : ℚ :=
    match (actions.filter (fun a => a.status == ActionStatus.completed)).getLast? with
    | some a => stn_get_time task_id a.action.finish_node
    | none => stn_get_time task_id "start"
  (Rat.cast (dg_get_time next_task_id "start" false) : ℝ) <
    (Rat.cast last_time : ℝ) + ((Rat.cast mean_sum : ℝ) + 2 * Real.sqrt (Rat.cast variance_sum : ℝ))

/-- Fixture for the C7 counterexample: every STN time is zero. -/
def ctrStnTime : String → String → ℚ := fun _ _ => 0

/-- Fixture for the C7 counterexample: the latest permitted start of the next
task is 2.8284, strictly between `2 * 1.414` (the code's rounded estimate)
and `2 * sqrt 2` (the claim's exact estimate). -/
def ctrDgTime : String → String → Bool → ℚ := fun _ _ _ => 28284 / 10000

/-- Fixture for the C7 counterexample: one ongoing action with mean 0 and
variance 2. -/
def ctrActions : List ActionProgress :=
  [⟨ActionStatus.ongoing, ⟨⟨0, 2⟩, "start", "pickup"⟩⟩]

/-! ## Task removal (`Timetable.remove_task`) -/

/-- Modelled from the spec: `stn.get_task_node_ids(task_id)` of the external
`stn` package returns the ids of the nodes belonging to the task (spec
section 3: node data identifies the owning task; an absent task yields no
nodes). -/
def get_task_node_ids (s : Stn) (task_id : String) : List Nat :=
  (s.nodes.filter (fun n => n.data == task_id)).map (fun n => n.id)

/-- Embeds `Timetable.remove_task_from_stn` and its dispatchable-graph twin
(`mrs/timetable/timetable.py`, lines 216-236) on one graph.  The engine's
removal operations (`remove_node_ids`, `remove_task` and
`get_task_position`) are external and enter as parameters; when the task has
no nodes, none of them is invoked: the source only logs a warning and calls
`store()`, which persists the unchanged graphs. -/
def remove_task_from_graph (remove_node_ids_op : Stn → List Nat → Stn)
    (remove_task_op : Stn → Nat → Stn) (get_task_position : Stn → String → Nat)
    (s : Stn) (task_id : String) : Stn :=
  let task_node_ids := get_task_node_ids s task_id
  if 0 < task_node_ids.length ∧ task_node_ids.length < 3 then
    remove_node_ids_op s task_node_ids
  else if task_node_ids.length = 3 then
    remove_task_op s (get_task_position s task_id)
  else
    s

/-- Embeds `Timetable.remove_task` (`mrs/timetable/timetable.py`, lines
212-236): removal from the STN, then from the dispatchable graph. -/
def remove_task (remove_node_ids_op : Stn → List Nat → Stn)
    (remove_task_op : Stn → Nat → Stn) (get_task_position : Stn → String → Nat)
    (t : Timetable) (task_id : String) : Timetable :=
  { t with
    stn := remove_task_from_graph remove_node_ids_op remove_task_op get_task_position t.stn task_id,
    dispatchable_graph :=
      remove_task_from_graph remove_node_ids_op remove_task_op get_task_position
        t.dispatchable_graph task_id }

/-- Replacement condition of claim C2 on the plain data: the new bid's cost
is strictly smaller lexicographically, or the costs are equal and the new
bid's numeric robot-id suffix is strictly smaller. -/
def replace_condition (c c_old : ℚ × ℚ) (new_suffix old_suffix : Nat) : Prop :=
  c.1 < c_old.1 ∨ (c.1 = c_old.1 ∧ c.2 < c_old.2) ∨ (c = c_old ∧ new_suffix < old_suffix)

/-! ## Theorems -/

theorem cost_task_le_refl (ca : ℚ × ℚ) (ta : String) : cost_task_le ca ca ta ta :=
  Or.inr ⟨rfl, Or.inr ⟨rfl, le_refl ta⟩⟩

theorem cost_task_le_trans {ca cb cc : ℚ × ℚ} {ta tb tc : String}
    (h1 : cost_task_le ca cb ta tb) (h2 : cost_task_le cb cc tb tc) :
    cost_task_le ca cc ta tc := by
  rcases h1 with h1 | ⟨e1, h1⟩
  · rcases h2 with h2 | ⟨e2, h2⟩
    · exact Or.inl (lt_trans h1 h2)
    · exact Or.inl (e2 ▸ h1)
  · rcases h2 with h2 | ⟨e2, h2⟩
    · exact Or.inl (e1 ▸ h2)
    · refine Or.inr ⟨e1.trans e2, ?_⟩
      rcases h1 with h1 | ⟨f1, h1⟩
      · rcases h2 with h2 | ⟨f2, h2⟩
        · exact Or.inl (lt_trans h1 h2)
        · exact Or.inl (f2 ▸ h1)
      · rcases h2 with h2 | ⟨f2, h2⟩
        · exact Or.inl (f1 ▸ h2)
        · exact Or.inr ⟨f1.trans f2, le_trans h1 h2⟩

theorem cost_task_le_of_lt {ca cb : ℚ × ℚ} {ta tb : String}
    (h : cost_task_lt ca cb ta tb) : cost_task_le ca cb ta tb := by
  rcases h with h | ⟨e, h | ⟨f, h⟩⟩
  · exact Or.inl h
  · exact Or.inr ⟨e, Or.inl h⟩
  · exact Or.inr ⟨e, Or.inr ⟨f, le_of_lt h⟩⟩

theorem cost_task_le_of_not_lt {ca cb : ℚ × ℚ} {ta tb : String}
    (h : ¬ cost_task_lt ca cb ta tb) : cost_task_le cb ca tb ta := by
  rcases lt_trichotomy cb.1 ca.1 with h1 | h1 | h1
  · exact Or.inl h1
  · refine Or.inr ⟨h1, ?_⟩
    rcases lt_trichotomy cb.2 ca.2 with h2 | h2 | h2
    · exact Or.inl h2
    · refine Or.inr ⟨h2, ?_⟩
      by_contra hts
      exact h (Or.inr ⟨h1.symm, Or.inr ⟨h2.symm, lt_of_not_le hts⟩⟩)
    · exact absurd (Or.inr ⟨h1.symm, Or.inl h2⟩) h
  · exact absurd (Or.inl h1) h

theorem bid_better_iff {b l : Bid} {cb cl : ℚ × ℚ}
    (hb : b.cost = some cb) (hl : l.cost = some cl) :
    bid_better b l = true ↔ cost_task_lt cb cl b.task_id l.task_id := by
  simp only [bid_better, Bid.lt, hb, hl, Bid.eqCost, costLt, cost_task_lt,
    Bool.or_eq_true, Bool.and_eq_true, decide_eq_true_eq, Option.some.injEq,
    Prod.ext_iff]
  tauto

theorem bid_le_spec_of_better {b l : Bid} {cb cl : ℚ × ℚ}
    (hb : b.cost = some cb) (hl : l.cost = some cl)
    (h : bid_better b l = true) : bid_le_spec b l :=
  ⟨cb, cl, hb, hl, cost_task_le_of_lt ((bid_better_iff hb hl).mp h)⟩

theorem bid_le_spec_of_not_better {b l : Bid} {cb cl : ℚ × ℚ}
    (hb : b.cost = some cb) (hl : l.cost = some cl)
    (h : bid_better b l = false) : bid_le_spec l b := by
  refine ⟨cl, cb, hl, hb, cost_task_le_of_not_lt ?_⟩
  intro hlt
  exact absurd ((bid_better_iff hb hl).mpr hlt) (by simp [h])

theorem bid_le_spec_refl {b : Bid} {cb : ℚ × ℚ} (hb : b.cost = some cb) :
    bid_le_spec b b :=
  ⟨cb, cb, hb, hb, cost_task_le_refl cb b.task_id⟩

theorem bid_le_spec_trans {a b c : Bid} (h1 : bid_le_spec a b) (h2 : bid_le_spec b c) :
    bid_le_spec a c := by
  obtain ⟨ca, cb, ha, hb, h1⟩ := h1
  obtain ⟨cb2, cc, hb2, hc, h2⟩ := h2
  rw [hb] at hb2
  cases Option.some.inj hb2
  exact ⟨ca, cc, ha, hc, cost_task_le_trans h1 h2⟩

theorem elect_winner_loop_spec :
    ∀ (l : List (String × Bid)) (acc : Option Bid),
      (∀ p ∈ l, (p.2).cost.isSome) →
      (∀ a, acc = some a → a.cost.isSome) →
      ((elect_winner_loop l acc = none ↔ (l = [] ∧ acc = none)) ∧
       ∀ w, elect_winner_loop l acc = some w →
         ((w ∈ l.map Prod.snd ∨ acc = some w) ∧ w.cost.isSome ∧
          (∀ b ∈ l.map Prod.snd, bid_le_spec w b) ∧
          (∀ a, acc = some a → bid_le_spec w a)))
  | [], acc, _, hacc => by
    refine ⟨by simp [elect_winner_loop], ?_⟩
    intro w hw
    simp only [elect_winner_loop] at hw
    exact ⟨Or.inr hw, hacc w hw, by simp, fun a ha => by
      rw [hw] at ha
      cases Option.some.inj ha
      obtain ⟨cw, hcw⟩ := Option.isSome_iff_exists.mp (hacc w hw)
      exact bid_le_spec_refl hcw⟩
  | (k, bid) :: rest, acc, h, hacc => by
    obtain ⟨cb, hcb⟩ : ∃ cb, bid.cost = some cb :=
      Option.isSome_iff_exists.mp (h (k, bid) (List.mem_cons_self _ _))
    have hrest : ∀ p ∈ rest, (p.2).cost.isSome := fun p hp => h p (List.mem_cons_of_mem _ hp)
    have hbidval : ∀ a, (some bid : Option Bid) = some a → a.cost.isSome := by
      intro a ha
      cases Option.some.inj ha
      simp [hcb]
    simp only [List.map_cons]
    rcases acc with _ | lb
    · have ih := elect_winner_loop_spec rest (some bid) hrest hbidval
      have hloop : elect_winner_loop ((k, bid) :: rest) none = elect_winner_loop rest (some bid) := rfl
      rw [hloop]
      refine ⟨⟨fun hnone => absurd (ih.1.mp hnone).2 (by simp), fun hfalse => by cases hfalse.1⟩, ?_⟩
      intro w hw
      obtain ⟨hmem, hval, hlerest, hleacc⟩ := ih.2 w hw
      have hlebid : bid_le_spec w bid := hleacc bid rfl
      refine ⟨?_, hval, ?_, ?_⟩
      · rcases hmem with hmem | hmem
        · exact Or.inl (List.mem_cons_of_mem _ hmem)
        · cases Option.some.inj hmem
          exact Or.inl (List.mem_cons_self _ _)
      · intro b hb
        rcases List.mem_cons.mp hb with hb | hb
        · exact hb ▸ hlebid
        · exact hlerest b hb
      · intro a ha
        cases ha
    · obtain ⟨cl, hcl⟩ : ∃ cl, lb.cost = some cl :=
        Option.isSome_iff_exists.mp (hacc lb rfl)
      by_cases hbb : bid_better bid lb = true
      · have hloop : elect_winner_loop ((k, bid) :: rest) (some lb)
            = elect_winner_loop rest (some bid) := by
          simp only [elect_winner_loop]
          rw [if_pos hbb]
        have ih := elect_winner_loop_spec rest (some bid) hrest hbidval
        have hstep : bid_le_spec bid lb := bid_le_spec_of_better hcb hcl hbb
        rw [hloop]
        refine ⟨⟨fun hnone => absurd (ih.1.mp hnone).2 (by simp), fun hfalse => by cases hfalse.1⟩, ?_⟩
        intro w hw
        obtain ⟨hmem, hval, hlerest, hleacc⟩ := ih.2 w hw
        have hlebid : bid_le_spec w bid := hleacc bid rfl
        refine ⟨?_, hval, ?_, ?_⟩
        · rcases hmem with hmem | hmem
          · exact Or.inl (List.mem_cons_of_mem _ hmem)
          · cases Option.some.inj hmem
            exact Or.inl (List.mem_cons_self _ _)
        · intro b hb
          rcases List.mem_cons.mp hb with hb | hb
          · exact hb ▸ hlebid
          · exact hlerest b hb
        · intro a ha
          cases Option.some.inj ha
          exact bid_le_spec_trans hlebid hstep
      · have hbbf : bid_better bid lb = false := Bool.eq_false_iff.mpr hbb
        have hloop : elect_winner_loop ((k, bid) :: rest) (some lb)
            = elect_winner_loop rest (some lb) := by
          simp only [elect_winner_loop]
          rw [if_neg hbb]
        have ih := elect_winner_loop_spec rest (some lb) hrest hacc
        have hstep : bid_le_spec lb bid := bid_le_spec_of_not_better hcb hcl hbbf
        rw [hloop]
        refine ⟨⟨fun hnone => absurd (ih.1.mp hnone).2 (by simp), fun hfalse => by cases hfalse.1⟩, ?_⟩
        intro w hw
        obtain ⟨hmem, hval, hlerest, hleacc⟩ := ih.2 w hw
        have hlelb : bid_le_spec w lb := hleacc lb rfl
        refine ⟨?_, hval, ?_, ?_⟩
        · rcases hmem with hmem | hmem
          · exact Or.inl (List.mem_cons_of_mem _ hmem)
          · exact Or.inr hmem
        · intro b hb
          rcases List.mem_cons.mp hb with hb | hb
          · exact hb ▸ bid_le_spec_trans hlelb hstep
          · exact hlerest b hb
        · intro a ha
          cases Option.some.inj ha
          exact hlelb

/-- Claim C1: for every finished round with only non-no-bids stored (the
invariant `process_bid` maintains), `elect_winner` raises
`NoAllocation(round id)` exactly on an empty `received_bids`, and otherwise
returns a stored non-no-bid that is less than or equal to every stored bid
under the ordering of spec section 4.5 (lexicographic
`(risk_metric, temporal_metric)`, ties broken by smaller `task_id`);
no-bids are never candidates because `process_bid` never stores them. -/
theorem c1_elect_winner_minimal (r : Round)
    (h : ∀ p ∈ r.received_bids, (p.2).cost.isSome) :
    (r.received_bids = [] → elect_winner r = Except.error ⟨r.id⟩) ∧
    (r.received_bids ≠ [] → ∃ w, elect_winner r = Except.ok w) ∧
    (∀ w, elect_winner r = Except.ok w →
      w ∈ r.received_bids.map Prod.snd ∧ w.cost.isSome ∧
      ∀ b ∈ r.received_bids.map Prod.snd, bid_le_spec w b) := by
  have hspec := elect_winner_loop_spec r.received_bids none h (by intro a ha; cases ha)
  refine ⟨?_, ?_, ?_⟩
  · intro hempty
    simp [elect_winner, hempty, elect_winner_loop]
  · intro hne
    rcases hloop : elect_winner_loop r.received_bids none with _ | w
    · exact absurd (hspec.1.mp hloop).1 hne
    · exact ⟨w, by simp [elect_winner, hloop]⟩
  · intro w hw
    have hloop : elect_winner_loop r.received_bids none = some w := by
      rcases hloop : elect_winner_loop r.received_bids none with _ | w2
      · simp [elect_winner, hloop] at hw
      · simp only [elect_winner, hloop] at hw
        cases hw
        rfl
    obtain ⟨hmem, hval, hle, _⟩ := hspec.2 w hloop
    exact ⟨hmem.resolve_right (by intro hc; cases hc), hval, hle⟩

/-- Witness for C1 at a concrete two-bid round. -/
theorem c1_elect_winner_minimal_witness :
    (∀ p ∈ (Round.mk "r1" [("t1", ⟨"robot_001", "t1", 1, some (3, 5), none⟩),
        ("t2", ⟨"robot_002", "t2", 1, some (2, 9), none⟩)] [] false).received_bids,
      (p.2).cost.isSome) ∧
    ((Round.mk "r1" [("t1", ⟨"robot_001", "t1", 1, some (3, 5), none⟩),
        ("t2", ⟨"robot_002", "t2", 1, some (2, 9), none⟩)] [] false).received_bids ≠ [] →
      ∃ w, elect_winner (Round.mk "r1" [("t1", ⟨"robot_001", "t1", 1, some (3, 5), none⟩),
        ("t2", ⟨"robot_002", "t2", 1, some (2, 9), none⟩)] [] false) = Except.ok w) := by
  refine ⟨by decide, ?_⟩
  exact (c1_elect_winner_minimal _ (by decide)).2.1

/-- Claim C3: for every closed round whose stored bids are non-no-bids (the
invariant `process_bid` maintains), `get_result` yields
`NoAllocation(round id)` exactly when no valid bid was received; otherwise the
winner is the overall smallest stored bid under the spec section 4.5 ordering,
and the result is the `AlternativeTimeSlot` signal carrying the winning bid
exactly when that bid has `alternative_start_time` set, the plain allocation
result otherwise. -/
theorem c3_get_result_spec (r : Round)
    (h : ∀ p ∈ r.received_bids, (p.2).cost.isSome) :
    (get_result r = RoundResult.no_allocation r.id ↔ r.received_bids = []) ∧
    (∀ w, elect_winner r = Except.ok w →
      (∀ b ∈ r.received_bids.map Prod.snd, bid_le_spec w b) ∧
      get_result r = (if w.alternative_start_time.isSome then
          RoundResult.alternative_time_slot w else RoundResult.allocation w)) := by
  have hspec := elect_winner_loop_spec r.received_bids none h (by intro a ha; cases ha)
  constructor
  · constructor
    · intro hres
      by_contra hne
      rcases hloop : elect_winner_loop r.received_bids none with _ | w
      · exact hne (hspec.1.mp hloop).1
      · rw [show get_result r = (if w.alternative_start_time.isSome then
            RoundResult.alternative_time_slot w else RoundResult.allocation w) from by
          simp [get_result, elect_winner, hloop]] at hres
        by_cases halt : w.alternative_start_time.isSome <;> simp [halt] at hres
    · intro hempty
      simp [get_result, elect_winner, hempty, elect_winner_loop]
  · intro w hw
    have hloop : elect_winner_loop r.received_bids none = some w := by
      rcases hloop : elect_winner_loop r.received_bids none with _ | w2
      · simp [elect_winner, hloop] at hw
      · simp only [elect_winner, hloop] at hw
        cases hw
        rfl
    obtain ⟨_, _, hle, _⟩ := hspec.2 w hloop
    exact ⟨hle, by simp [get_result, hw]⟩

/-- Witness for C3 at a concrete one-bid round. -/
theorem c3_get_result_spec_witness :
    (∀ p ∈ (Round.mk "r3" [("t7", ⟨"robot_003", "t7", 2, some (4, 4), none⟩)] [] false).received_bids,
      (p.2).cost.isSome) ∧
    (get_result (Round.mk "r3" [("t7", ⟨"robot_003", "t7", 2, some (4, 4), none⟩)] [] false)
        = RoundResult.no_allocation
            (Round.mk "r3" [("t7", ⟨"robot_003", "t7", 2, some (4, 4), none⟩)] [] false).id ↔
      (Round.mk "r3" [("t7", ⟨"robot_003", "t7", 2, some (4, 4), none⟩)] [] false).received_bids = []) := by
  refine ⟨by decide, ?_⟩
  exact (c3_get_result_spec _ (by decide)).1

theorem lookupKey_setKey_self {α : Type} :
    ∀ (m : List (String × α)) (k : String) (v : α), lookupKey (setKey m k v) k = some v
  | [], k, v => by simp [setKey, lookupKey]
  | p :: rest, k, v => by
    by_cases hpk : (p.1 == k) = true
    · simp [setKey, hpk, lookupKey]
    · simp [setKey, hpk, lookupKey, lookupKey_setKey_self rest k v]

theorem lookupKey_setKey_ne {α : Type} :
    ∀ (m : List (String × α)) (k : String) (v : α) (t : String), t ≠ k →
      lookupKey (setKey m k v) t = lookupKey m t
  | [], k, v, t, h => by
    simp only [setKey, lookupKey, beq_iff_eq]
    rw [if_neg (Ne.symm h)]
  | p :: rest, k, v, t, h => by
    by_cases hpk : (p.1 == k) = true
    · have hp1 : p.1 = k := by simpa [beq_iff_eq] using hpk
      simp only [setKey, hpk, if_true, lookupKey, beq_iff_eq, hp1]
      rw [if_neg (Ne.symm h), if_neg (Ne.symm h)]
    · simp only [setKey, hpk, if_false, lookupKey, Bool.false_eq_true]
      by_cases hpt : (p.1 == t) = true
      · simp [hpt]
      · simp [hpt, lookupKey_setKey_ne rest k v t h]

theorem update_task_bid_iff {new_bid old_bid : Bid} {c c_old : ℚ × ℚ} {n_new n_old : Nat}
    (hc : new_bid.cost = some c) (hco : old_bid.cost = some c_old)
    (hn : robot_id_suffix new_bid.robot_id = some n_new)
    (ho : robot_id_suffix old_bid.robot_id = some n_old) :
    update_task_bid new_bid old_bid = true ↔ replace_condition c c_old n_new n_old := by
  simp only [update_task_bid, Bid.lt, hc, hco, Bid.eqCost, costLt, hn, ho,
    Option.getD_some, Bool.or_eq_true, Bool.and_eq_true, decide_eq_true_eq,
    Option.some.injEq, replace_condition, Prod.ext_iff]
  tauto

/-- Claim C2: while a round is open, a bid with a present cost for task T
replaces the stored best bid for T exactly when T has no stored bid yet, or
the new cost is strictly smaller lexicographically, or the costs are equal
and the new bid's numeric robot-id suffix is strictly smaller; a bid with
cost `(None, None)` leaves `received_bids` unchanged and increments
`received_no_bids` for T by exactly one, leaving the other counters
unchanged. -/
theorem c2_process_bid_spec (r : Round) (bid : Bid) :
    (∀ c, bid.cost = some c →
      ((process_bid r bid).received_no_bids = r.received_no_bids ∧
       (lookupKey r.received_bids bid.task_id = none →
         (process_bid r bid).received_bids = setKey r.received_bids bid.task_id bid) ∧
       (∀ old_bid c_old n_new n_old,
         lookupKey r.received_bids bid.task_id = some old_bid →
         old_bid.cost = some c_old →
         robot_id_suffix bid.robot_id = some n_new →
         robot_id_suffix old_bid.robot_id = some n_old →
         ((replace_condition c c_old n_new n_old →
            (process_bid r bid).received_bids = setKey r.received_bids bid.task_id bid) ∧
          (¬ replace_condition c c_old n_new n_old →
            (process_bid r bid).received_bids = r.received_bids))))) ∧
    (bid.cost = none →
      ((process_bid r bid).received_bids = r.received_bids ∧
       lookupCount (process_bid r bid).received_no_bids bid.task_id
         = lookupCount r.received_no_bids bid.task_id + 1 ∧
       ∀ other_task, other_task ≠ bid.task_id →
         lookupCount (process_bid r bid).received_no_bids other_task
           = lookupCount r.received_no_bids other_task)) := by
  constructor
  · intro c hc
    refine ⟨?_, ?_, ?_⟩
    · rcases hl : lookupKey r.received_bids bid.task_id with _ | old_bid
      · simp [process_bid, hc, hl]
      · by_cases hu : update_task_bid bid old_bid = true <;> simp [process_bid, hc, hl, hu]
    · intro hnone
      simp [process_bid, hc, hnone]
    · intro old_bid c_old n_new n_old hl hcold hn ho
      constructor
      · intro hrc
        have hu : update_task_bid bid old_bid = true :=
          (update_task_bid_iff hc hcold hn ho).mpr hrc
        simp [process_bid, hc, hl, hu]
      · intro hrc
        have hu : update_task_bid bid old_bid = false := by
          rw [Bool.eq_false_iff]
          intro hu
          exact hrc ((update_task_bid_iff hc hcold hn ho).mp hu)
        simp [process_bid, hc, hl, hu]
  · intro hnone
    refine ⟨by simp [process_bid, hnone], ?_, ?_⟩
    · simp [process_bid, hnone, lookupCount, lookupKey_setKey_self]
    · intro other_task ht
      simp [process_bid, hnone, lookupCount, lookupKey_setKey_ne _ _ _ _ ht]

/-- Witness for C2: a concrete no-bid increments the counter and leaves the
stored bids unchanged. -/
theorem c2_process_bid_spec_witness :
    (Bid.mk "robot_002" "t1" 1 none none).cost = none ∧
    (process_bid (Round.mk "r2" [] [("t1", 4)] false)
        (Bid.mk "robot_002" "t1" 1 none none)).received_bids
      = (Round.mk "r2" [] [("t1", 4)] false).received_bids ∧
    lookupCount (process_bid (Round.mk "r2" [] [("t1", 4)] false)
        (Bid.mk "robot_002" "t1" 1 none none)).received_no_bids "t1"
      = lookupCount (Round.mk "r2" [] [("t1", 4)] false).received_no_bids "t1" + 1 := by
  refine ⟨rfl, ?_, ?_⟩
  · exact ((c2_process_bid_spec (Round.mk "r2" [] [("t1", 4)] false)
      (Bid.mk "robot_002" "t1" 1 none none)).2 rfl).1
  · exact ((c2_process_bid_spec (Round.mk "r2" [] [("t1", 4)] false)
      (Bid.mk "robot_002" "t1" 1 none none)).2 rfl).2.1

theorem insert_task_loop_cons (compute_bid : Nat → Option Bid) (tasks : List TaskInfo)
    (insertion_point : Nat) (rest : List Nat) (best_bid : Option Bid) :
    insert_task_loop compute_bid tasks (insertion_point :: rest) best_bid =
      match insert_in tasks insertion_point with
      | Except.error e => Except.error e
      | Except.ok false => insert_task_loop compute_bid tasks rest best_bid
      | Except.ok true =>
        match compute_bid insertion_point with
        | none => insert_task_loop compute_bid tasks rest best_bid
        | some bid =>
          insert_task_loop compute_bid tasks rest
            (match best_bid with
             | none => some bid
             | some bb => if bid_better bid bb then some bid else some bb) := rfl

theorem insert_task_loop_error (compute_bid : Nat → Option Bid) (tasks : List TaskInfo) :
    ∀ (b a : Nat) (best : Option Bid), 1 ≤ a → a + b = tasks.length + 1 →
      insert_task_loop compute_bid tasks (List.range' a (b + 1)) best
        = Except.error ⟨tasks.length + 1⟩
  | 0, a, best, ha, hab => by
    have haeq : a = tasks.length + 1 := by omega
    subst haeq
    have hget : tasks.get? (tasks.length + 1 - 1) = none := by
      rw [Nat.add_sub_cancel]
      exact List.get?_eq_none.mpr (le_refl _)
    simp [List.range', insert_task_loop, insert_in, timetable_get_task, hget]
  | b + 1, a, best, ha, hab => by
    have hlt : a - 1 < tasks.length := by omega
    obtain ⟨task, htask⟩ : ∃ task, tasks.get? (a - 1) = some task := by
      rcases hg : tasks.get? (a - 1) with _ | task
      · rw [List.get?_eq_none] at hg
        omega
      · exact ⟨task, rfl⟩
    have hrec : ∀ best2, insert_task_loop compute_bid tasks (List.range' (a + 1) (b + 1)) best2
        = Except.error ⟨tasks.length + 1⟩ :=
      fun best2 => insert_task_loop_error compute_bid tasks b (a + 1) best2 (by omega) (by omega)
    have hrange : List.range' a (b + 1 + 1) = a :: List.range' (a + 1) (b + 1) :=
      List.range'_succ a (b + 1) 1
    have hif : insert_in tasks a
        = if task.status ≠ TaskStatusConst.allocated then Except.ok false else Except.ok true := by
      unfold insert_in timetable_get_task
      rw [htask]
    rw [hrange, insert_task_loop_cons]
    by_cases hst : task.status ≠ TaskStatusConst.allocated
    · rw [hif, if_pos hst]
      exact hrec best
    · rw [hif, if_neg hst]
      rcases hcb : compute_bid a with _ | bid
      · exact hrec best
      · exact hrec _

/-- Claim C4 is contradicted by the code (code bug): `Bidder.insert_task`
never evaluates all insertion points `1 .. k+1` and never returns a best bid
or `None`.  `Timetable.get_task` raises `TaskNotFound` for a position with no
task, `Bidder.insert_in` does not catch it (its `if task` guard expects a
falsy return instead), and position `k+1` never holds a task, so every call
aborts with `TaskNotFound(k+1)`.  In particular, on an empty timetable the
call raises `TaskNotFound(1)` before any bid is computed. -/
theorem c4_insert_task_always_raises (compute_bid : Nat → Option Bid) (tasks : List TaskInfo) :
    insert_task compute_bid tasks = Except.error ⟨tasks.length + 1⟩ :=
  insert_task_loop_error compute_bid tasks tasks.length 1 none (le_refl 1) (by omega)

/-- Claim C10: for insertion point 1, when the robot's current position is
missing from the store (`DoesNotExist`), `get_previous_position` does not
fail and returns the hardcoded fallback location. -/
theorem c10_previous_position_fallback (planner_get_node : ℚ × ℚ × ℚ → String)
    (tasks : List TaskInfo) :
    get_previous_position none planner_get_node tasks 1 = Except.ok "AMK_D_L-1_C39" := by
  simp [get_previous_position]

/-- Witness for C10 at a concrete planner and timetable. -/
theorem c10_previous_position_fallback_witness :
    get_previous_position none (fun _ => "AMK_B_L2") [] 1 = Except.ok "AMK_D_L-1_C39" :=
  c10_previous_position_fallback (fun _ => "AMK_B_L2") []

/-- Claim C5: `assign_timepoint` succeeds exactly when the minimal network of
a copy of the STN exists and is consistent after forcing the timepoint; on
success the assignment is applied to the real STN, otherwise
`InconsistentAssignment(time, task id, node type)` is raised and the STN is
unchanged. -/
theorem c5_assign_timepoint_spec {STN : Type} (get_minimal_network : STN → Option STN)
    (is_consistent : STN → Bool) (stn_assign : STN → ℚ → String → String → Bool → STN)
    (stn : STN) (assigned_time : ℚ) (task_id node_type : String) :
    ((assign_timepoint get_minimal_network is_consistent stn_assign stn assigned_time
        task_id node_type).1 = none
      ↔ ∃ mn, get_minimal_network stn = some mn ∧
          is_consistent (stn_assign mn assigned_time task_id node_type true) = true) ∧
    ((assign_timepoint get_minimal_network is_consistent stn_assign stn assigned_time
        task_id node_type).1 = none →
      (assign_timepoint get_minimal_network is_consistent stn_assign stn assigned_time
        task_id node_type).2 = stn_assign stn assigned_time task_id node_type true) ∧
    (∀ e, (assign_timepoint get_minimal_network is_consistent stn_assign stn assigned_time
        task_id node_type).1 = some e →
      e = ⟨assigned_time, task_id, node_type⟩ ∧
      (assign_timepoint get_minimal_network is_consistent stn_assign stn assigned_time
        task_id node_type).2 = stn) := by
  rcases hmn : get_minimal_network stn with _ | mn
  · simp [assign_timepoint, hmn]
  · by_cases hcons : is_consistent (stn_assign mn assigned_time task_id node_type true) = true
    · simp [assign_timepoint, hmn, hcons]
    · simp only [assign_timepoint, hmn]
      rw [if_neg hcons]
      refine ⟨⟨fun hc => Option.noConfusion hc, ?_⟩, fun hc => Option.noConfusion hc, ?_⟩
      · rintro ⟨mn2, hmn2, hc2⟩
        cases Option.some.inj hmn2
        exact absurd hc2 hcons
      · intro e he
        exact ⟨(Option.some.inj he).symm, rfl⟩

/-- Witness for C5 at a concrete one-node STN model. -/
theorem c5_assign_timepoint_spec_witness :
    (assign_timepoint (fun (s : Nat) => some s) (fun (_ : Nat) => true)
        (fun s _ _ _ _ => s + 1) 0 1 "t5" "start").2 = 1 :=
  (c5_assign_timepoint_spec (fun (s : Nat) => some s) (fun (_ : Nat) => true)
    (fun s _ _ _ _ => s + 1) 0 1 "t5" "start").2.1 rfl

/-- Claim C6: when the manager commits a winning allocation and the STN
solver reports `NoSTPSolution`, `update_timetable` raises
`InvalidAllocation(task id, robot id, insertion point)` and the robot's
timetable (its STN and dispatchable graph, in memory and in the store) is
left as it was before the commit attempt, assuming the in-memory timetable
was in sync with the store beforehand (they are written together on every
successful commit). -/
theorem c6_update_timetable_rollback {STN : Type}
    (solve_stp : TimetableVal STN → Option (STN × STN))
    (set_temporal_metric : STN → ℚ → STN) (n_tasks_queue : Nat)
    (st : ManagerState STN) (robot_id : String) (insertion_point : Nat)
    (temporal_metric : ℚ) (task_id : String)
    (hsync : st.mem = st.stored) (hfail : solve_stp st.stored = none) :
    manager_update_timetable solve_stp set_temporal_metric n_tasks_queue st robot_id
        insertion_point temporal_metric task_id
      = (some ⟨task_id, robot_id, insertion_point⟩, st) := by
  cases st with
  | mk mem stored marker =>
    simp only at hsync hfail
    subst hsync
    simp [manager_update_timetable, hfail]

/-- Witness for C6 at a concrete manager state over a trivial STN model. -/
theorem c6_update_timetable_rollback_witness :
    (fun (_ : TimetableVal Nat) => (none : Option (Nat × Nat))) (⟨0, 0⟩ : TimetableVal Nat) = none ∧
    manager_update_timetable (fun (_ : TimetableVal Nat) => (none : Option (Nat × Nat)))
        (fun s _ => s) 3 (⟨⟨0, 0⟩, ⟨0, 0⟩, none⟩ : ManagerState Nat) "robot_001" 1 0 "t6"
      = (some ⟨"t6", "robot_001", 1⟩, (⟨⟨0, 0⟩, ⟨0, 0⟩, none⟩ : ManagerState Nat)) :=
  ⟨rfl, c6_update_timetable_rollback (fun _ => none) (fun s _ => s) 3
    (⟨⟨0, 0⟩, ⟨0, 0⟩, none⟩ : ManagerState Nat) "robot_001" 1 0 "t6" rfl rfl⟩

/-- Claim C9: removing a task whose id has no nodes in either graph is a
logged no-op: no removal operation of the engine is invoked, no exception is
raised (the function is total and takes the warning branch), and the
timetable is unchanged. -/
theorem c9_remove_task_absent_noop (remove_node_ids_op : Stn → List Nat → Stn)
    (remove_task_op : Stn → Nat → Stn) (get_task_position : Stn → String → Nat)
    (t : Timetable) (task_id : String)
    (h1 : get_task_node_ids t.stn task_id = [])
    (h2 : get_task_node_ids t.dispatchable_graph task_id = []) :
    remove_task remove_node_ids_op remove_task_op get_task_position t task_id = t := by
  cases t with
  | mk rid ztp stn dg =>
    simp only at h1 h2
    simp [remove_task, remove_task_from_graph, h1, h2]

/-- Witness for C9 at a concrete empty timetable. -/
theorem c9_remove_task_absent_noop_witness :
    get_task_node_ids (Stn.mk [] []) "t9" = [] ∧
    remove_task (fun s _ => s) (fun s _ => s) (fun _ _ => 0)
        (Timetable.mk "robot_001" ⟨"z"⟩ (Stn.mk [] []) (Stn.mk [] [])) "t9"
      = Timetable.mk "robot_001" ⟨"z"⟩ (Stn.mk [] []) (Stn.mk [] []) :=
  ⟨rfl, c9_remove_task_absent_noop (fun s _ => s) (fun s _ => s) (fun _ _ => 0)
    (Timetable.mk "robot_001" ⟨"z"⟩ (Stn.mk [] []) (Stn.mk [] [])) "t9" rfl rfl⟩

theorem stn_roundtrip (s : Stn) : stn_from_dict (stn_to_dict s) = s := by
  cases s with
  | mk ns es =>
    simp only [stn_to_dict, stn_from_dict, List.map_map]
    have h1 : ((fun (p : Nat × String) => (⟨p.1, p.2⟩ : StnNode)) ∘
        fun (n : StnNode) => (n.id, n.data)) = id := rfl
    have h2 : ((fun (p : Nat × Nat × ℚ × ℚ × Bool) =>
        (⟨p.1, p.2.1, p.2.2.1, p.2.2.2.1, p.2.2.2.2⟩ : StnEdge)) ∘
        fun (e : StnEdge) => (e.source, e.target, e.lb, e.ub, e.executed)) = id := rfl
    rw [h1, h2, List.map_id, List.map_id]

/-- Claim C8 (property P7): deserializing a serialized timetable yields a
structurally equal timetable: same `robot_id`, `ztp`, `stn` and
`dispatchable_graph`. -/
theorem c8_timetable_roundtrip (t : Timetable) :
    timetable_from_dict (timetable_to_dict t) = t := by
  cases t with
  | mk rid ztp stn dg =>
    cases ztp with
    | mk iso =>
      simp [timetable_to_dict, timetable_from_dict, TimeStamp.to_str, TimeStamp.from_str,
        stn_roundtrip]

/-- Witness for C8 at a concrete timetable. -/
theorem c8_timetable_roundtrip_witness :
    timetable_from_dict (timetable_to_dict (Timetable.mk "robot_001" ⟨"2020-01-23T08:00:00Z"⟩
        (Stn.mk [⟨0, "ztp"⟩] []) (Stn.mk [⟨0, "ztp"⟩] [])))
      = Timetable.mk "robot_001" ⟨"2020-01-23T08:00:00Z"⟩
          (Stn.mk [⟨0, "ztp"⟩] []) (Stn.mk [⟨0, "ztp"⟩] []) :=
  c8_timetable_roundtrip (Timetable.mk "robot_001" ⟨"2020-01-23T08:00:00Z"⟩
    (Stn.mk [⟨0, "ztp"⟩] []) (Stn.mk [⟨0, "ztp"⟩] []))

theorem scan_actions_eq (actions : List ActionProgress) :
    scan_actions actions
      = (((actions.filter (fun a => a.status == ActionStatus.completed)).getLast?).map
            (fun a => a.action),
         ((actions.filter (fun a => a.status == ActionStatus.ongoing
              || a.status == ActionStatus.planned)).map
            (fun a => a.action.estimated_duration.mean)).sum,
         ((actions.filter (fun a => a.status == ActionStatus.ongoing
              || a.status == ActionStatus.planned)).map
            (fun a => a.action.estimated_duration.variance)).sum) := by
  induction actions using List.reverseRecOn with
  | nil => simp [scan_actions]
  | append_singleton l a ih =>
    rcases a with ⟨st, act⟩
    have hfold : scan_actions (l ++ [⟨st, act⟩])
        = scan_step (scan_actions l) ⟨st, act⟩ := by
      simp [scan_actions, List.foldl_append]
    rw [hfold, ih]
    cases st <;>
      simp [scan_step, List.filter_append, List.map_append, List.sum_append,
        List.getLast?_concat, add_comm]

/-- Claim C7 as amended: `is_next_task_late` returns true iff the last known
time of the current task (the STN time of the last completed action's finish
node, or of the task's start node when no action has completed) plus the
remaining duration estimate exceeds the latest permitted start of the next
task, where the estimate is the sum of the means plus two times the square
root of the sum of the variances rounded to three decimal places (the
source's `round(variance ** 0.5, 3)`) over the ongoing or planned actions. -/
theorem c7_is_next_task_late_rounded (stn_get_time : String → String → ℚ)
    (dg_get_time : String → String → Bool → ℚ) (task_id next_task_id : String)
    (actions : List ActionProgress) :
    is_next_task_late stn_get_time dg_get_time task_id next_task_id actions = true ↔
      dg_get_time next_task_id "start" false <
        (match (actions.filter (fun a => a.status == ActionStatus.completed)).getLast? with
         | some a => stn_get_time task_id a.action.finish_node
         | none => stn_get_time task_id "start") +
        (((actions.filter (fun a => a.status == ActionStatus.ongoing
              || a.status == ActionStatus.planned)).map
            (fun a => a.action.estimated_duration.mean)).sum +
         2 * sqrtRound3 (((actions.filter (fun a => a.status == ActionStatus.ongoing
              || a.status == ActionStatus.planned)).map
            (fun a => a.action.estimated_duration.variance)).sum)) := by
  simp only [is_next_task_late, scan_actions_eq, decide_eq_true_eq]
  cases hlast : (actions.filter (fun a => a.status == ActionStatus.completed)).getLast? with
  | none => simp [hlast]
  | some a => simp [hlast]

theorem sqrtRound3_two : sqrtRound3 2 = 707 / 500 := by
  have hfloor : (1000000 : ℚ) * 2 = ((2000000 : ℤ) : ℚ) := by norm_num
  have hk : isqrt (Int.floor ((1000000 : ℚ) * 2)).toNat = 1414 := by
    rw [hfloor, Int.floor_intCast]
    decide
  have hcond : 4 * ((1000000 : ℚ) * 2) < ((2 * 1414 + 1 : ℕ) : ℚ) ^ 2 := by
    push_cast
    norm_num
  simp only [sqrtRound3, hk]
  rw [if_pos hcond]
  push_cast
  norm_num

/-- Counterexample to claim C7 as stated: with one ongoing action of mean 0
and variance 2, all STN times 0 and the next task's latest permitted start
2.8284, the claim's formula (exact square root) says the next task is late
(`0 + 0 + 2 * sqrt 2 = 2.82842... > 2.8284`), but the code returns false
because it rounds the square root to three decimals
(`0 + 0 + 2 * 1.414 = 2.828 < 2.8284`). -/
theorem c7_exact_sqrt_counterexample :
    spec_is_next_task_late ctrStnTime ctrDgTime "t1" "t2" ctrActions ∧
    is_next_task_late ctrStnTime ctrDgTime "t1" "t2" ctrActions = false := by
  constructor
  · have hb1 : (ActionStatus.ongoing == ActionStatus.completed) = false := rfl
    have hb2 : (ActionStatus.ongoing == ActionStatus.ongoing) = true := rfl
    simp only [spec_is_next_task_late, ctrActions, ctrStnTime, ctrDgTime, List.filter,
      List.map, List.sum_cons, List.sum_nil, List.getLast?, hb1, hb2, Bool.true_or]
    push_cast
    norm_num
    nlinarith [Real.sq_sqrt (by norm_num : (0 : ℝ) ≤ 2), Real.sqrt_nonneg 2]
  · have hs : sqrtRound3 (0 + 2) = 707 / 500 := by
      rw [show (0 : ℚ) + 2 = 2 by norm_num, sqrtRound3_two]
    simp only [is_next_task_late, scan_actions, ctrActions, List.foldl, scan_step,
      ctrStnTime, ctrDgTime, hs]
    exact decide_eq_false (by norm_num)
